import Mathlib

/-!
Verification development for the QnA-RAG repository.

The Python sources under `app/` are shallowly embedded: pure computations
become Lean functions, external collaborators (the Qdrant backend, the
OpenAI embedding and chat providers, the RAGAS evaluator) become explicit
function parameters or `Except`-valued oracles, and the raising of Python
exceptions becomes `Except.error`.  Stateful interaction (the retriever
call log, the uuid supply, the lru cache) is explicit state passing.
-/

namespace QnARAG

/-- Embedding of a langchain `Document`: a page content string together
with its metadata mapping (values abstracted to strings). -/
structure Document where
  page_content : String
  metadata : List (String × String)
deriving DecidableEq, Repr

/-! ## app/core/vector_store.py -/

/-- Python truthiness fallback `k = k or default` for an `int` value `k`:
`0` is falsy and replaced by the default, every nonzero integer (negative
integers included) is truthy and kept. -/
def pyOrInt (k : Int) (default : Int) : Int :=
  if k = 0 then default else k

/-- Embedding of `VectorStoreService.search` (vector_store.py lines
103-121).  The Python signature is `search(self, query, k: int = 4)`: an
omitted `k` (modelled as `none`) takes the literal default `4`, then the
body runs `k = k or self.cfg.retrieval.k` and issues
`self.vector_store.similarity_search(query, k=k)`.  The backend similarity
search is an external collaborator, passed as the oracle `sim`; `cfg_k`
is `cfg.retrieval.k`. -/
def search {ρ : Type} (cfg_k : Int) (sim : String → Int → ρ)
    (query : String) (k : Option Int) : ρ :=
  sim query (pyOrInt (k.getD 4) cfg_k)

/-- Embedding of `VectorStoreService.search_with_scores` (vector_store.py
lines 124-146).  The Python signature is `k: int | None = None`; the body
runs `k = k or self.cfg.retrieval.k` (both `None` and `0` are falsy) and
issues `similarity_search_with_score(query, k=k)` on the backend oracle
`sim`. -/
def search_with_scores {ρ : Type} (cfg_k : Int) (sim : String → Int → ρ)
    (query : String) (k : Option Int) : ρ :=
  sim query (match k with
    | none => cfg_k
    | some v => pyOrInt v cfg_k)

/-- Backend probe used to observe which `k` a search request passes to the
similarity-search collaborator: it returns the requested `k` itself. -/
def kProbe : String → Int → Int := fun _ k => k

/-- Model of Python `uuid.uuid4` as a supply of fresh identifiers: `next`
is the next identifier to hand out, and drawing advances the supply.  The
spec assigns random 128-bit UUIDs exactly the freshness guarantee this
supply provides (collisions negligible, identifiers never reused), so an
identifier is modelled as the natural number drawn from the supply. -/
structure UuidSupply where
  next : Nat
deriving DecidableEq, Repr

/-- State of the vector backend as the service observes it: the inserted
points (identifier paired with document) and the log of batched embedding
calls made on the embedding provider, one entry per batch with the texts
embedded. -/
structure Backend where
  points : List (Nat × Document)
  embedBatches : List (List String)
deriving DecidableEq, Repr

/-- External collaborator `self.vector_store.add_documents(documents,
ids=ids)` (langchain QdrantVectorStore): embeds all chunk texts in one
batched call on the embedding provider and upserts one point per chunk
under the caller-supplied identifiers. -/
def vs_add_documents (b : Backend) (documents : List Document)
    (ids : List Nat) : Backend :=
  { points := b.points ++ ids.zip documents
    embedBatches := b.embedBatches ++ [documents.map (·.page_content)] }

/-- Embedding of `VectorStoreService.add_documents` (vector_store.py lines
77-100): an empty input returns `[]` before any backend contact; otherwise
one fresh identifier is drawn per document (`ids = [str(uuid4()) for _ in
documents]`) and the batch is handed to the backend vector store.  Returns
the identifiers, the updated backend and the advanced uuid supply. -/
def add_documents (b : Backend) (s : UuidSupply) (documents : List Document) :
    List Nat × Backend × UuidSupply :=
  if documents.isEmpty then ([], b, s)
  else
    let ids := (List.range documents.length).map (s.next + ·)
    (ids, vs_add_documents b documents ids, ⟨s.next + documents.length⟩)

/-- Collection statistics as the Qdrant backend reports them
(`client.get_collection`): point count, indexed vector count and the
status enum value rendered as a string. -/
structure CollectionInfo where
  points_count : Nat
  indexed_vectors_count : Nat
  status : String
deriving DecidableEq, Repr

/-- Failure modes of a Qdrant client call: `unexpectedResponse` is the
`UnexpectedResponse` exception the client raises for a not-found (absent
collection) HTTP response, `other` is any other exception with its
message. -/
inductive QdrantErr where
  | unexpectedResponse : QdrantErr
  | other : String → QdrantErr
deriving DecidableEq, Repr

/-- Result record of `get_collection_info`. -/
structure InfoResult where
  name : String
  points_count : Nat
  indexed_vectors_count : Nat
  status : String
deriving DecidableEq, Repr

/-- Embedding of `VectorStoreService.get_collection_info` (vector_store.py
lines 176-196): the backend call `client.get_collection(collection_name)`
is the oracle argument `backendGet`; an `UnexpectedResponse` (absent
collection) is caught and turned into the sentinel zero-count record with
status `"not_found"`, any other exception propagates. -/
def get_collection_info (backendGet : Except QdrantErr CollectionInfo)
    (collection_name : String) : Except QdrantErr InfoResult :=
  match backendGet with
  | .ok info =>
      .ok { name := collection_name
            points_count := info.points_count
            indexed_vectors_count := info.indexed_vectors_count
            status := info.status }
  | .error .unexpectedResponse =>
      .ok { name := collection_name
            points_count := 0
            indexed_vectors_count := 0
            status := "not_found" }
  | .error e => .error e

/-! ## functools.lru_cache over app/core/embeddings.py and get_qdrant_client -/

/-- State of a `functools.lru_cache` cache as applied (bare, so with the
default `maxsize=128`) to `get_embeddings` and `get_qdrant_client`:
`entries` maps a configuration key (the hash identity of the `DictConfig`,
modelled as a natural number) to the instance constructed for it, least
recently used first; `nextInstance` is a supply making constructed
instances distinguishable, so that each run of the underlying constructor
yields a fresh instance. -/
structure LruCache where
  entries : List (Nat × Nat)
  nextInstance : Nat
deriving DecidableEq, Repr

/-- Default `maxsize` of a bare `functools.lru_cache` decorator. -/
def lruMaxsize : Nat := 128

/-- Cached instance stored for a configuration key, if any. -/
def lruLookup (entries : List (Nat × Nat)) (key : Nat) : Option Nat :=
  (entries.find? (fun e => e.1 == key)).map (·.2)

/-- One call of an `lru_cache`-decorated constructor with argument `key`.
On a hit the cached instance is returned and its entry moves to the end
(most recently used position); the underlying constructor does not run.
On a miss the constructor runs: `construct = some err` means this
construction attempt fails by raising `err`, in which case the error
propagates and nothing is cached; `construct = none` means it succeeds,
yielding a fresh instance that is appended at the end, with the least
recently used entry (the head) evicted when the cache would exceed
`maxsize`. -/
def cachedCall (st : LruCache) (key : Nat) (construct : Option String) :
    Except String Nat × LruCache :=
  match st.entries.find? (fun e => e.1 == key) with
  | some e =>
      (.ok e.2,
       { st with entries := st.entries.filter (fun x => !(x.1 == key)) ++ [(key, e.2)] })
  | none =>
      match construct with
      | some err => (.error err, st)
      | none =>
          let inst := st.nextInstance
          let inserted := st.entries ++ [(key, inst)]
          { fst := .ok inst
            snd := { entries := if lruMaxsize < inserted.length
                                then inserted.tail else inserted
                     nextInstance := inst + 1 } }

/-- Embedding of `get_embeddings` (embeddings.py lines 11-27): the
`OpenAIEmbeddings` construction behind a bare `lru_cache`. -/
def get_embeddings (st : LruCache) (cfg : Nat) (construct : Option String) :
    Except String Nat × LruCache :=
  cachedCall st cfg construct

/-- Embedding of `get_qdrant_client` (vector_store.py lines 16-31): the
`QdrantClient` construction behind a bare `lru_cache`. -/
def get_qdrant_client (st : LruCache) (cfg : Nat) (construct : Option String) :
    Except String Nat × LruCache :=
  cachedCall st cfg construct

/-- Sequence of successful constructor calls, one per key in order. -/
def lruCallKeys (st : LruCache) (keys : List Nat) : LruCache :=
  keys.foldl (fun s k => (cachedCall s k none).2) st

/-! ## app/core/rag_chain.py -/

/-- Embedding of `format_docs` (rag_chain.py lines 32-41): joins the page
contents with the visible separator. -/
def format_docs (docs : List Document) : String :=
  String.intercalate "\n\n---\n\n" (docs.map (·.page_content))

/-- Embedding of `RAG_PROMPT_TEMPLATE` (rag_chain.py lines 18-29) rendered
by `ChatPromptTemplate` at a given context and question. -/
def RAG_PROMPT_TEMPLATE (context question : String) : String :=
  "You are a helpful assistant. Answer the question based on the provided context.\n\nIf you cannot answer the question based on the context, say \"I don\x27t have enough information to answer that question.\"\n\nDo not make up information. Only use the context provided.\n\nContext:\n"
    ++ context ++ "\n\nQuestion: " ++ question ++ "\n\nAnswer:"

/-- Truncation applied to each retrieved chunk by `run_with_sources` and
`arun_with_sources` (rag_chain.py lines 118-128 and 175-185):
`doc.page_content[:500] + "..." if len(doc.page_content) > 500 else
doc.page_content`. -/
def truncateContent (s : String) : String :=
  if 500 < s.length then s.take 500 ++ "..." else s

/-- One returned source: truncated content plus the full metadata. -/
structure Source where
  content : String
  metadata : List (String × String)
deriving DecidableEq, Repr

/-- The source list built from the retrieved documents. -/
def mkSources (docs : List Document) : List Source :=
  docs.map (fun doc =>
    { content := truncateContent doc.page_content, metadata := doc.metadata })

/-- Evaluation record as `arun_with_evaluation` handles it: the three
scalar fields (scores and timing, of an abstract value type `α`) are
optional, and `error` carries a failure message when evaluation failed. -/
structure EvaluationRecord (α : Type) where
  faithfulness : Option α
  answer_relevancy : Option α
  evaluation_time_ms : Option α
  error : Option String
deriving DecidableEq, Repr

/-- External collaborators of one `RagChain` query, as oracles.  The
retriever may answer differently on distinct invocations (retrieval need
not be deterministic), so `retrieve` is indexed by the invocation count so
far; a `.error` outcome is the collaborator raising an exception with that
message.  `llm` maps the rendered prompt to the model answer and
`evaluator` is `RAGEvaluator.aevaluate` on `(question, answer,
contexts)`. -/
structure Env (α : Type) where
  retrieve : Nat → String → Except String (List Document)
  llm : String → Except String String
  evaluator : String → String → List String → Except String (EvaluationRecord α)

/-- Observable interaction trace of a query: every query string passed to
the retriever, in order, and every `(question, answer, contexts)` triple
passed to the evaluator. -/
structure Trace where
  retrieverQueries : List String
  evaluatorCalls : List (String × String × List String)
deriving DecidableEq, Repr

/-- Result of `run_with_sources` and `arun_with_sources`: the answer and
the source list. -/
structure SourcesResult where
  answer : String
  sources : List Source
deriving DecidableEq, Repr

/-- Embedding of `self.chain.invoke(query)` / `ainvoke` for the chain
built in `RagChain.__init__` (rag_chain.py lines 71-79): the retriever
runs on the query, `format_docs` joins the retrieved documents, the
prompt template is rendered and the language model invoked. -/
def chain_invoke {α : Type} (env : Env α) (tr : Trace) (query : String) :
    Except String String × Trace :=
  let tr1 : Trace := { tr with retrieverQueries := tr.retrieverQueries ++ [query] }
  match env.retrieve tr.retrieverQueries.length query with
  | .error e => (.error e, tr1)
  | .ok docs => (env.llm (RAG_PROMPT_TEMPLATE (format_docs docs) query), tr1)

/-- Embedding of `RagChain.run_with_sources` (rag_chain.py lines 103-139):
invoke the chain for the answer, then invoke the retriever a second time
on the same query for the sources, truncating each chunk; any exception
propagates. -/
def run_with_sources {α : Type} (env : Env α) (tr : Trace) (query : String) :
    Except String SourcesResult × Trace :=
  match chain_invoke env tr query with
  | (.error e, tr1) => (.error e, tr1)
  | (.ok answer, tr1) =>
      let tr2 : Trace := { tr1 with retrieverQueries := tr1.retrieverQueries ++ [query] }
      match env.retrieve tr1.retrieverQueries.length query with
      | .error e => (.error e, tr2)
      | .ok source_docs =>
          (.ok { answer := answer, sources := mkSources source_docs }, tr2)

/-- Embedding of `RagChain.arun_with_sources` (rag_chain.py lines
160-196): identical logic to `run_with_sources`, with `ainvoke` in place
of `invoke`; under the pure embedding the awaiting collapses and the two
definitions coincide. -/
def arun_with_sources {α : Type} (env : Env α) (tr : Trace) (query : String) :
    Except String SourcesResult × Trace :=
  run_with_sources env tr query

/-- Result of `arun_with_evaluation`: answer, sources and the evaluation
record. -/
structure EvalQueryResult (α : Type) where
  answer : String
  sources : List Source
  evaluation : EvaluationRecord α
deriving DecidableEq, Repr

/-- Embedding of `RagChain.arun_with_evaluation` (rag_chain.py lines
199-243): run `arun_with_sources`, build `contexts` from the `content`
fields of the returned sources, call the evaluator inside its own
`try`: on any evaluator exception substitute the record with all scalar
fields `None` and `error` set to the exception message.  A failure of
`arun_with_sources` itself is re-raised by the outer `try`.  The
`include_sources` flag is accepted and, as in the source body, unused. -/
def arun_with_evaluation {α : Type} (env : Env α) (tr : Trace)
    (question : String) (include_sources : Bool) :
    Except String (EvalQueryResult α) × Trace :=
  match arun_with_sources env tr question with
  | (.error e, tr1) => (.error e, tr1)
  | (.ok result, tr1) =>
      let answer := result.answer
      let sources := result.sources
      let contexts := sources.map (·.content)
      let tr2 : Trace :=
        { tr1 with evaluatorCalls := tr1.evaluatorCalls ++ [(question, answer, contexts)] }
      let evaluation : EvaluationRecord α :=
        match env.evaluator question answer contexts with
        | .ok ev => ev
        | .error e =>
            { faithfulness := none
              answer_relevancy := none
              evaluation_time_ms := none
              error := some e }
      (.ok { answer := answer, sources := sources, evaluation := evaluation }, tr2)

/-! ## app/api/routes/documents.py -/

/-- Python exceptions the upload route can raise or observe: an HTTP
exception with status and detail, the `NameError` raised when a line
references an undefined name, a `ValueError`, or any other exception. -/
inductive PyExc where
  | httpException : Nat → String → PyExc
  | nameError : String → PyExc
  | valueError : String → PyExc
  | otherError : String → PyExc
deriving DecidableEq, Repr

/-- Python `str(e)` on the exceptions above; for a fastapi `HTTPException`
this renders as `"<status>: <detail>"`. -/
def excStr : PyExc → String
  | .httpException status detail => toString status ++ ": " ++ detail
  | .nameError n => "name \x27" ++ n ++ "\x27 is not defined"
  | .valueError m => m
  | .otherError m => m

/-- Response body of a successful upload. -/
structure DocumentUploadResponse where
  message : String
  filename : String
  chunks_created : Nat
  document_ids : List Nat
deriving DecidableEq, Repr

/-- Embedding of the `upload_document` route handler (documents.py lines
35-84).  `process_upload` is the outcome of the external
`DocumentProcessor.process_upload` call (the extracted chunks, or the
exception it raises); `add_docs` is the outcome of
`VectorStoreService.add_documents` on the chunks.  Control flow as in the
source: an empty filename hits line 44, `raise HTTPExceptio(...)`, whose
misspelt name is undefined, so Python raises a `NameError` (uncaught in
the handler, hence not an HTTP 400 rejection); inside the `try`, zero
chunks raise `HTTPException(400, ...)`, but `HTTPException` is an
`Exception` and not a `ValueError`, so the blanket `except Exception`
catches it and re-raises `HTTPException(500, "Error processing document:
" + str(e))`; a `ValueError` becomes `HTTPException(400, str(e))`. -/
def upload_document (filename : String)
    (process_upload : Except PyExc (List Document))
    (add_docs : List Document → Except PyExc (List Nat)) :
    Except PyExc DocumentUploadResponse :=
  if filename.isEmpty then
    .error (.nameError "HTTPExceptio")
  else
    let body : Except PyExc DocumentUploadResponse :=
      match process_upload with
      | .error e => .error e
      | .ok chunks =>
          if chunks.isEmpty then
            .error (.httpException 400 "No content could be extracted from the document")
          else
            match add_docs chunks with
            | .error e => .error e
            | .ok ids =>
                .ok { message := "Document uploaded and processed successfully"
                      filename := filename
                      chunks_created := chunks.length
                      document_ids := ids }
    match body with
    | .ok r => .ok r
    | .error (.valueError m) => .error (.httpException 400 m)
    | .error e => .error (.httpException 500 ("Error processing document: " ++ excStr e))

/-! ## Concrete inputs for witnesses and counterexamples -/

/-- Empty interaction trace. -/
def emptyTrace : Trace :=
  { retrieverQueries := [], evaluatorCalls := [] }

/-- Document of 600 identical characters with one metadata entry, forcing
the truncation branch of the source builder. -/
def bigDoc : Document :=
  { page_content := String.mk (List.replicate 600 "a".front)
    metadata := [("source", "big.txt")] }

/-- Short document that fits under the 500-character threshold. -/
def smallDoc : Document :=
  { page_content := "The sky is blue."
    metadata := [("source", "sky.txt")] }

/-- Query environment whose retriever always returns the large document,
whose model answers a fixed string and whose evaluator always times
out. -/
def envBig : Env Nat :=
  { retrieve := fun _ _ => .ok [bigDoc]
    llm := fun _ => .ok "ans"
    evaluator := fun _ _ _ => .error "evaluation timed out" }

/-- Query environment over the short document with an evaluator that
succeeds with a fixed record. -/
def envSmall : Env Nat :=
  { retrieve := fun _ _ => .ok [smallDoc]
    llm := fun _ => .ok "It is blue."
    evaluator := fun _ _ _ =>
      .ok { faithfulness := some 1
            answer_relevancy := some 1
            evaluation_time_ms := some 12
            error := none } }

/-- Query environment whose retriever always returns no documents, whose
model answers a fixed string and whose evaluator always raises. -/
def envNoDocs : Env Nat :=
  { retrieve := fun _ _ => .ok []
    llm := fun _ => .ok "no-context answer"
    evaluator := fun _ _ _ => .error "boom" }

/-- Result `run_with_sources` produces in `envNoDocs`. -/
def rNoDocs : SourcesResult :=
  { answer := "no-context answer", sources := [] }

/-- Source record built from `bigDoc`: first 500 characters plus the
ellipsis marker. -/
def bigSource : Source :=
  { content := bigDoc.page_content.take 500 ++ "..."
    metadata := [("source", "big.txt")] }

/-- Result `run_with_sources` produces in `envSmall`. -/
def rSmall : SourcesResult :=
  { answer := "It is blue."
    sources := [{ content := "The sky is blue.", metadata := [("source", "sky.txt")] }] }

/-- Result `run_with_sources` produces in `envBig`. -/
def rBig : SourcesResult :=
  { answer := "ans", sources := [bigSource] }

/-- Trace after one `run_with_sources` call on query `"q"` from the empty
trace: the retriever was invoked twice with `"q"`. -/
def trQ : Trace :=
  { retrieverQueries := ["q", "q"], evaluatorCalls := [] }

/-! ## Theorems -/

/-- C3, counterexample: with `cfg.retrieval.k = 7`, `search` with `k`
unspecified requests `4` (its literal Python default) from the backend,
not the configured `7`; and `search_with_scores` with the negative
`k = -2` requests `-2` (negative integers are truthy, so the fallback
does not trigger), not the configured `7`. -/
theorem search_default_k_counterexample :
    search 7 kProbe "q" none = 4 ∧
    ¬ search 7 kProbe "q" none = 7 ∧
    search_with_scores 7 kProbe "q" (some (-2)) = -2 ∧
    ¬ search_with_scores 7 kProbe "q" (some (-2)) = 7 :=
  ⟨rfl, by decide, rfl, by decide⟩

/-- C3 (amended): `search_with_scores` requests the configured
`cfg.retrieval.k` when `k` is unspecified or zero and requests `k` itself
for every nonzero `k`, negatives included; `search` requests its literal
default `4` when `k` is unspecified, the configured `cfg.retrieval.k` when
`k = 0`, and `k` itself for every nonzero `k`, negatives included. -/
theorem search_k_resolution :
    ∀ {ρ : Type} (cfg_k : Int) (sim : String → Int → ρ) (query : String),
      search cfg_k sim query none = sim query 4 ∧
      search cfg_k sim query (some 0) = sim query cfg_k ∧
      search_with_scores cfg_k sim query none = sim query cfg_k ∧
      search_with_scores cfg_k sim query (some 0) = sim query cfg_k ∧
      (∀ v : Int, v ≠ 0 →
        search cfg_k sim query (some v) = sim query v ∧
        search_with_scores cfg_k sim query (some v) = sim query v) := by
  intro ρ cfg_k sim query
  refine ⟨rfl, rfl, rfl, rfl, fun v hv => ?_⟩
  constructor
  · simp [search, pyOrInt, hv]
  · simp [search_with_scores, pyOrInt, hv]

/-- C3 witness: the nonzero clause of `search_k_resolution` applied at
`cfg.retrieval.k = 7` and `k = -2`. -/
theorem search_k_resolution_witness :
    ((-2 : Int) ≠ 0) ∧ search 7 kProbe "qq" (some (-2)) = kProbe "qq" (-2) :=
  ⟨by decide, ((search_k_resolution 7 kProbe "qq").2.2.2.2 (-2) (by decide)).1⟩

/-- C5: `add_documents` on the empty list returns the empty identifier
list, leaves the backend untouched (no point insert, no batched embedding
call) and draws no identifier from the uuid supply. -/
theorem add_documents_empty_noop :
    ∀ (b : Backend) (s : UuidSupply), add_documents b s [] = ([], b, s) := by
  intro b s
  rfl

/-- C6: on a non-empty chunk list, `add_documents` returns one freshly
drawn identifier per chunk: the identifier list has the length of the
input, its elements are pairwise distinct, every element is fresh (at
least the supply mark before the call and below the mark after it), and
no identifier returned by a subsequent call is ever one of them. -/
theorem add_documents_fresh_unique_ids :
    ∀ (b : Backend) (s : UuidSupply) (documents : List Document),
      documents ≠ [] →
      (add_documents b s documents).1.length = documents.length ∧
      (add_documents b s documents).1.Nodup ∧
      (∀ id ∈ (add_documents b s documents).1,
        s.next ≤ id ∧ id < (add_documents b s documents).2.2.next) ∧
      (∀ (documents2 : List Document),
        ∀ id2 ∈ (add_documents (add_documents b s documents).2.1
                  (add_documents b s documents).2.2 documents2).1,
          id2 ∉ (add_documents b s documents).1) := by
  intro b s documents hne
  have hfalse : documents.isEmpty = false := by
    cases documents with
    | nil => exact absurd rfl hne
    | cons d l => rfl
  refine ⟨?_, ?_, ?_, ?_⟩
  · simp [add_documents, hfalse]
  · simp only [add_documents, hfalse, Bool.false_eq_true, if_false]
    exact (List.nodup_range _).map (fun i j hij => by omega)
  · intro id hid
    simp only [add_documents, hfalse, Bool.false_eq_true, if_false,
      List.mem_map, List.mem_range] at hid
    obtain ⟨i, hi, rfl⟩ := hid
    constructor
    · omega
    · simp only [add_documents, hfalse, Bool.false_eq_true, if_false]
      omega
  · intro documents2 id2 hid2 hid
    by_cases h2 : documents2.isEmpty
    · simp only [add_documents, hfalse, Bool.false_eq_true, if_false, h2,
        if_true] at hid2
      simp at hid2
    · simp only [add_documents, hfalse, Bool.false_eq_true, if_false,
        eq_self_iff_true] at hid2 hid
      rw [if_neg (by simp [h2])] at hid2
      simp only [List.mem_map, List.mem_range] at hid2 hid
      obtain ⟨i, hi, heq⟩ := hid2
      obtain ⟨j, hj, heq2⟩ := hid
      omega

/-- C6 witness: a two-chunk call from supply mark 10 yields the two fresh
distinct identifiers, and a following call cannot return them again. -/
theorem add_documents_fresh_unique_ids_witness :
    ([smallDoc, bigDoc] ≠ ([] : List Document)) ∧
    (add_documents ⟨[], []⟩ ⟨10⟩ [smallDoc, bigDoc]).1.length = 2 :=
  ⟨by simp,
   (add_documents_fresh_unique_ids ⟨[], []⟩ ⟨10⟩ [smallDoc, bigDoc]
     (by simp)).1.trans (by rfl)⟩

/-- C7: `get_collection_info` on a backend not-found response returns,
without raising, the sentinel record with zero point count, zero indexed
vector count and status `"not_found"`; on an existing collection it
returns the point count, indexed vector count and status the backend
reported. -/
theorem get_collection_info_not_found_sentinel :
    ∀ (name : String) (info : CollectionInfo),
      get_collection_info (.error .unexpectedResponse) name =
        .ok { name := name
              points_count := 0
              indexed_vectors_count := 0
              status := "not_found" } ∧
      get_collection_info (.ok info) name =
        .ok { name := name
              points_count := info.points_count
              indexed_vectors_count := info.indexed_vectors_count
              status := info.status } := by
  intro name info
  exact ⟨rfl, rfl⟩

/-- Helper: a cache hit returns the cached instance, runs no construction
(the instance supply is untouched) and keeps the key cached. -/
theorem cachedCall_hit (st : LruCache) (key i : Nat) (c : Option String)
    (h : lruLookup st.entries key = some i) :
    (cachedCall st key c).1 = .ok i ∧
    (cachedCall st key c).2.nextInstance = st.nextInstance ∧
    lruLookup (cachedCall st key c).2.entries key = some i := by
  unfold lruLookup at h
  cases hf : st.entries.find? (fun e => e.1 == key) with
  | none => rw [hf] at h; simp at h
  | some e =>
      rw [hf] at h
      simp at h
      subst h
      refine ⟨?_, ?_, ?_⟩
      · simp only [cachedCall, hf]
      · simp only [cachedCall, hf]
      · simp only [cachedCall, hf]
        unfold lruLookup
        rw [List.find?_append]
        have hfilter :
            (st.entries.filter (fun x => !(x.1 == key))).find?
              (fun e => e.1 == key) = none := by
          rw [List.find?_eq_none]
          intro x hx
          have := List.of_mem_filter hx
          simp only [Bool.not_eq_eq_eq_not, Bool.not_true] at this
          simp [this]
        rw [hfilter]
        simp [List.find?]

/-- Helper: a cache miss with succeeding construction returns the fresh
instance, advances the instance supply and caches the key. -/
theorem cachedCall_miss_ok (st : LruCache) (key : Nat)
    (h : lruLookup st.entries key = none) :
    (cachedCall st key none).1 = .ok st.nextInstance ∧
    (cachedCall st key none).2.nextInstance = st.nextInstance + 1 ∧
    lruLookup (cachedCall st key none).2.entries key = some st.nextInstance := by
  unfold lruLookup at h
  cases hf : st.entries.find? (fun e => e.1 == key) with
  | some e => rw [hf] at h; simp at h
  | none =>
      refine ⟨?_, ?_, ?_⟩
      · simp only [cachedCall, hf]
      · simp only [cachedCall, hf]
      · simp only [cachedCall, hf]
        unfold lruLookup
        by_cases hlen : lruMaxsize < (st.entries ++ [(key, st.nextInstance)]).length
        · rw [if_pos hlen]
          cases hst : st.entries with
          | nil => rw [hst] at hlen; simp [lruMaxsize] at hlen
          | cons a l =>
              rw [hst] at hf
              simp only [List.cons_append, List.tail_cons]
              rw [List.find?_append]
              have hl : l.find? (fun e => e.1 == key) = none := by
                rw [List.find?_eq_none]
                intro x hx
                have := List.find?_eq_none.mp hf x (by simp [hx])
                simpa using this
              rw [hl]
              simp [List.find?]
        · rw [if_neg hlen]
          rw [List.find?_append, hf]
          simp [List.find?]

/-- Helper: a cache miss with failing construction propagates the error
and leaves the cache state completely unchanged. -/
theorem cachedCall_miss_err (st : LruCache) (key : Nat) (err : String)
    (h : lruLookup st.entries key = none) :
    cachedCall st key (some err) = (.error err, st) := by
  unfold lruLookup at h
  cases hf : st.entries.find? (fun e => e.1 == key) with
  | some e => rw [hf] at h; simp at h
  | none => unfold cachedCall; rw [hf]

/-- Helper: an immediately repeated call with the same key returns the
same outcome as the first successful call. -/
theorem cachedCall_repeat (st : LruCache) (key : Nat) (c : Option String) :
    (cachedCall (cachedCall st key none).2 key c).1 = (cachedCall st key none).1 := by
  cases h : lruLookup st.entries key with
  | some i =>
      obtain ⟨h1, _, h3⟩ := cachedCall_hit st key i none h
      rw [h1, (cachedCall_hit _ key i c h3).1]
  | none =>
      obtain ⟨h1, _, h3⟩ := cachedCall_miss_ok st key h
      rw [h1, (cachedCall_hit _ key st.nextInstance c h3).1]

/-- Helper: folding successful constructions over the distinct keys
`0, …, n-1` from the empty cache, for `n` within the cache capacity,
fills the cache with one entry per key in call order and advances the
instance supply to `n`. -/
theorem lruCallKeys_range (n : Nat) (hn : n ≤ lruMaxsize) :
    lruCallKeys ⟨[], 0⟩ (List.range n) =
      ⟨(List.range n).map (fun k => (k, k)), n⟩ := by
  induction n with
  | zero => rfl
  | succ m ih =>
      have hm : m ≤ lruMaxsize := Nat.le_of_succ_le hn
      rw [List.range_succ]
      unfold lruCallKeys
      rw [List.foldl_append]
      have hclosed := ih hm
      unfold lruCallKeys at hclosed
      rw [hclosed]
      simp only [List.foldl_cons, List.foldl_nil]
      have hf : ((List.range m).map (fun k => (k, k))).find?
          (fun e => e.1 == m) = none := by
        rw [List.find?_eq_none]
        intro x hx
        simp only [List.mem_map, List.mem_range] at hx
        obtain ⟨k, hk, rfl⟩ := hx
        simp
        omega
      simp only [cachedCall, hf]
      have hlen : ¬ (lruMaxsize <
          ((List.range m).map (fun k => (k, k)) ++ [(m, m)]).length) := by
        simp only [List.length_append, List.length_map, List.length_range,
          List.length_cons, List.length_nil, lruMaxsize] at hn ⊢
        omega
      rw [if_neg hlen]
      rw [List.map_append]
      rfl

/-- C8, counterexample: the caches behind `get_embeddings` and
`get_qdrant_client` hold at most 128 entries, so construction is not
memoized without eviction.  Constructing for configuration `0`, then for
the 128 further distinct configurations `1, …, 128`, then for
configuration `0` again runs the underlying constructor a second time for
configuration `0` and yields a different instance (`129`, not the
original `0`). -/
theorem lru_eviction_counterexample :
    (get_embeddings { entries := [], nextInstance := 0 } 0 none).1 = .ok 0 ∧
    (get_embeddings (lruCallKeys { entries := [], nextInstance := 0 }
        (List.range 129)) 0 none).1 = .ok 129 ∧
    (0 : Nat) ≠ 129 := by
  refine ⟨rfl, ?_, by omega⟩
  have h128 := lruCallKeys_range 128 (by simp [lruMaxsize])
  have hf : ((List.range 128).map (fun k => (k, k))).find?
      (fun e => e.1 == 128) = none := by
    rw [List.find?_eq_none]
    intro x hx
    simp only [List.mem_map, List.mem_range] at hx
    obtain ⟨k, hk, rfl⟩ := hx
    simp
    omega
  have hsplit : lruCallKeys { entries := [], nextInstance := 0 } (List.range 129) =
      (cachedCall ⟨(List.range 128).map (fun k => (k, k)), 128⟩ 128 none).2 := by
    rw [show (129 : Nat) = 128 + 1 from rfl, List.range_succ]
    unfold lruCallKeys
    rw [List.foldl_append]
    unfold lruCallKeys at h128
    rw [h128]
    simp only [List.foldl_cons, List.foldl_nil]
  rw [hsplit]
  simp only [cachedCall, hf]
  have hlen : lruMaxsize <
      ((List.range 128).map (fun k => (k, k)) ++ [(128, 128)]).length := by
    simp [lruMaxsize]
  rw [if_pos hlen]
  have htail : ((List.range 128).map (fun k => (k, k)) ++ [(128, 128)]).tail
      = ((List.range 128).map Nat.succ).map (fun k => (k, k)) := by
    have : (List.range 128).map (fun k => (k, k)) ++ [(128, 128)]
        = (List.range 129).map (fun k => (k, k)) := by
      rw [show (129 : Nat) = 128 + 1 from rfl, List.range_succ, List.map_append]
      rfl
    rw [this, List.range_succ_eq_map]
    simp [List.map_map]
  rw [htail]
  have hf0 : (((List.range 128).map Nat.succ).map (fun k => (k, k))).find?
      (fun e => e.1 == 0) = none := by
    rw [List.find?_eq_none]
    intro x hx
    simp only [List.map_map, List.mem_map, List.mem_range] at hx
    obtain ⟨k, hk, rfl⟩ := hx
    simp
  simp only [get_embeddings, cachedCall, hf0]

/-- C8 (amended): `get_embeddings` and `get_qdrant_client` memoize
construction per distinct configuration in a least-recently-used cache of
capacity 128 (the bare `lru_cache` default), not without eviction: while
a configuration is still cached, a repeated call returns the identical
cached instance and runs no construction — in particular an immediately
repeated call always does — and a construction call that fails is not
cached, leaving the cache unchanged so that a later call retries
initialization. -/
theorem cached_provider_memoization :
    ∀ (st : LruCache) (key i : Nat) (c : Option String) (err : String),
      (lruLookup st.entries key = some i →
        (get_embeddings st key c).1 = .ok i ∧
        (get_embeddings st key c).2.nextInstance = st.nextInstance ∧
        (get_qdrant_client st key c).1 = .ok i ∧
        (get_qdrant_client st key c).2.nextInstance = st.nextInstance) ∧
      ((get_embeddings (get_embeddings st key none).2 key c).1
          = (get_embeddings st key none).1 ∧
       (get_qdrant_client (get_qdrant_client st key none).2 key c).1
          = (get_qdrant_client st key none).1) ∧
      (lruLookup st.entries key = none →
        get_embeddings st key (some err) = (.error err, st) ∧
        (get_embeddings st key none).1 = .ok st.nextInstance ∧
        get_qdrant_client st key (some err) = (.error err, st) ∧
        (get_qdrant_client st key none).1 = .ok st.nextInstance) := by
  intro st key i c err
  refine ⟨fun h => ?_,
    ⟨cachedCall_repeat st key c, cachedCall_repeat st key c⟩,
    fun h => ?_⟩
  · obtain ⟨h1, h2, _⟩ := cachedCall_hit st key i c h
    exact ⟨h1, h2, h1, h2⟩
  · exact ⟨cachedCall_miss_err st key err h, (cachedCall_miss_ok st key h).1,
      cachedCall_miss_err st key err h, (cachedCall_miss_ok st key h).1⟩

/-- C8 witness: the hit clause applied to a cache holding instance `3`
for configuration `5`, and the failure clause applied to an empty cache
with a failing construction for configuration `7`. -/
theorem cached_provider_memoization_witness :
    (lruLookup (LruCache.mk [(5, 3)] 4).entries 5 = some 3 ∧
      (get_embeddings (LruCache.mk [(5, 3)] 4) 5 none).1 = .ok 3) ∧
    (lruLookup (LruCache.mk [] 0).entries 7 = none ∧
      get_qdrant_client (LruCache.mk [] 0) 7 (some "bad credentials")
        = (.error "bad credentials", LruCache.mk [] 0)) :=
  ⟨⟨rfl, ((cached_provider_memoization ⟨[(5, 3)], 4⟩ 5 3 none "x").1 rfl).1⟩,
   ⟨rfl,
    ((cached_provider_memoization ⟨[], 0⟩ 7 0 (some "z") "bad credentials").2.2
      rfl).2.2.1⟩⟩

/-- Helper: anatomy of a successful `run_with_sources` call: the first
retriever invocation feeds the prompt and the language model produces the
answer, the second retriever invocation produces the sources, and the
trace records exactly the two retriever invocations with the same
query. -/
theorem run_with_sources_ok_spec {α : Type} {env : Env α} {tr : Trace}
    {query : String} {r : SourcesResult} {tr2 : Trace}
    (h : run_with_sources env tr query = (.ok r, tr2)) :
    ∃ docs0 docs1,
      env.retrieve tr.retrieverQueries.length query = .ok docs0 ∧
      env.llm (RAG_PROMPT_TEMPLATE (format_docs docs0) query) = .ok r.answer ∧
      env.retrieve (tr.retrieverQueries.length + 1) query = .ok docs1 ∧
      r.sources = mkSources docs1 ∧
      tr2 = { retrieverQueries := tr.retrieverQueries ++ [query, query]
              evaluatorCalls := tr.evaluatorCalls } := by
  unfold run_with_sources chain_invoke at h
  cases h0 : env.retrieve tr.retrieverQueries.length query with
  | error e => rw [h0] at h; simp at h
  | ok docs0 =>
      rw [h0] at h
      dsimp only at h
      cases h1 : env.llm (RAG_PROMPT_TEMPLATE (format_docs docs0) query) with
      | error e => rw [h1] at h; simp at h
      | ok ans =>
          rw [h1] at h
          dsimp only at h
          simp only [List.length_append, List.length_cons, List.length_nil,
            Nat.zero_add] at h
          cases h2 : env.retrieve (tr.retrieverQueries.length + 1) query with
          | error e => rw [h2] at h; simp at h
          | ok docs1 =>
              rw [h2] at h
              dsimp only at h
              simp only [Prod.mk.injEq, Except.ok.injEq] at h
              obtain ⟨hr, htr⟩ := h
              subst hr
              subst htr
              refine ⟨docs0, docs1, rfl, h1, rfl, rfl, ?_⟩
              simp

/-- C10: a successful `run_with_sources` (and, identically,
`arun_with_sources`) invokes the retriever exactly twice with the same
query — once inside the answer chain, once for the returned sources — the
returned sources are built from the second invocation's result, and they
coincide with the chunks the answer was generated from when the two
invocations retrieve the same documents. -/
theorem retriever_invoked_twice :
    ∀ {α : Type} (env : Env α) (tr : Trace) (query : String)
      (r : SourcesResult) (tr2 : Trace),
      run_with_sources env tr query = (.ok r, tr2) →
      tr2.retrieverQueries = tr.retrieverQueries ++ [query, query] ∧
      (∃ docs1, env.retrieve (tr.retrieverQueries.length + 1) query = .ok docs1 ∧
        r.sources = mkSources docs1) ∧
      (∀ docs0 docs1,
        env.retrieve tr.retrieverQueries.length query = .ok docs0 →
        env.retrieve (tr.retrieverQueries.length + 1) query = .ok docs1 →
        docs0 = docs1 →
        r.sources = mkSources docs0) ∧
      arun_with_sources env tr query = run_with_sources env tr query := by
  intro α env tr query r tr2 h
  obtain ⟨docs0, docs1, h0, h1, h2, hs, htr⟩ := run_with_sources_ok_spec h
  refine ⟨by rw [htr], ⟨docs1, h2, hs⟩, ?_, rfl⟩
  intro d0 d1 g0 g1 geq
  rw [g1] at h2
  injection h2 with hd
  rw [hs, ← hd, ← geq]

/-- C10 witness: in a deterministic no-document environment, a query is
passed to the retriever twice. -/
theorem retriever_invoked_twice_witness :
    run_with_sources envNoDocs emptyTrace "q" = (.ok rNoDocs, trQ) ∧
    trQ.retrieverQueries = emptyTrace.retrieverQueries ++ ["q", "q"] :=
  ⟨rfl, (retriever_invoked_twice envNoDocs emptyTrace "q" rNoDocs trQ rfl).1⟩

/-- C4: each source returned by a successful `run_with_sources` (and,
identically, `arun_with_sources`) carries the retrieved chunk's full text
when that text has at most 500 characters and exactly its first 500
characters followed by the ellipsis marker `"..."` when it is longer, and
carries the chunk's metadata unmodified. -/
theorem sources_truncated_metadata_preserved :
    ∀ {α : Type} (env : Env α) (tr : Trace) (query : String)
      (r : SourcesResult) (tr2 : Trace) (docs : List Document),
      run_with_sources env tr query = (.ok r, tr2) →
      env.retrieve (tr.retrieverQueries.length + 1) query = .ok docs →
      r.sources = docs.map (fun d =>
        { content := truncateContent d.page_content
          metadata := d.metadata }) ∧
      (∀ d ∈ docs,
        (d.page_content.length ≤ 500 →
          truncateContent d.page_content = d.page_content) ∧
        (500 < d.page_content.length →
          truncateContent d.page_content = d.page_content.take 500 ++ "...")) ∧
      arun_with_sources env tr query = run_with_sources env tr query := by
  intro α env tr query r tr2 docs h hret
  obtain ⟨docs0, docs1, h0, h1, h2, hs, htr⟩ := run_with_sources_ok_spec h
  rw [hret] at h2
  injection h2 with hd
  refine ⟨by rw [hs, hd]; rfl, ?_, rfl⟩
  intro d hd500
  constructor
  · intro hle
    unfold truncateContent
    rw [if_neg (by omega)]
  · intro hgt
    unfold truncateContent
    rw [if_pos hgt]

set_option maxRecDepth 4000 in
/-- C4 witness: on a 600-character chunk the returned source content is
the first 500 characters plus the ellipsis marker, with metadata
unmodified. -/
theorem sources_truncated_metadata_preserved_witness :
    (run_with_sources envBig emptyTrace "q" = (.ok rBig, trQ) ∧
     envBig.retrieve (emptyTrace.retrieverQueries.length + 1) "q" = .ok [bigDoc]) ∧
    rBig.sources = [bigDoc].map (fun d =>
      { content := truncateContent d.page_content
        metadata := d.metadata }) :=
  ⟨⟨rfl, rfl⟩,
   (sources_truncated_metadata_preserved envBig emptyTrace "q" rBig trQ
     [bigDoc] rfl rfl).1⟩

/-- C1: when `arun_with_sources` succeeds and the evaluator call raises
any exception, `arun_with_evaluation` does not raise: it returns the
answer and sources unchanged together with an evaluation record whose
`faithfulness`, `answer_relevancy` and `evaluation_time_ms` are all
absent and whose `error` is the failure message. -/
theorem rag_evaluation_failure_isolated :
    ∀ {α : Type} (env : Env α) (tr : Trace) (question : String) (inc : Bool)
      (r : SourcesResult) (tr1 : Trace) (msg : String),
      arun_with_sources env tr question = (.ok r, tr1) →
      env.evaluator question r.answer (r.sources.map (·.content)) = .error msg →
      arun_with_evaluation env tr question inc =
        (.ok { answer := r.answer
               sources := r.sources
               evaluation := { faithfulness := none
                               answer_relevancy := none
                               evaluation_time_ms := none
                               error := some msg } },
         { retrieverQueries := tr1.retrieverQueries
           evaluatorCalls := tr1.evaluatorCalls ++
             [(question, r.answer, r.sources.map (·.content))] }) := by
  intro α env tr question inc r tr1 msg h1 h2
  unfold arun_with_evaluation
  rw [h1]
  simp only [h2]

/-- C1 witness: an always-raising evaluator still yields the answer, the
sources, and the all-absent evaluation record carrying its message. -/
theorem rag_evaluation_failure_isolated_witness :
    (arun_with_sources envNoDocs emptyTrace "q" = (.ok rNoDocs, trQ) ∧
     envNoDocs.evaluator "q" rNoDocs.answer (rNoDocs.sources.map (·.content))
       = .error "boom") ∧
    arun_with_evaluation envNoDocs emptyTrace "q" true =
      (.ok { answer := rNoDocs.answer
             sources := rNoDocs.sources
             evaluation := { faithfulness := none
                             answer_relevancy := none
                             evaluation_time_ms := none
                             error := some "boom" } },
       { retrieverQueries := trQ.retrieverQueries
         evaluatorCalls := trQ.evaluatorCalls ++
           [("q", rNoDocs.answer, rNoDocs.sources.map (·.content))] }) :=
  ⟨⟨rfl, rfl⟩,
   rag_evaluation_failure_isolated envNoDocs emptyTrace "q" true rNoDocs trQ
     "boom" rfl rfl⟩

/-- C9: the contexts `arun_with_evaluation` passes to the evaluator are
exactly the `content` strings of the returned sources — the truncated
chunk texts, first 500 characters plus ellipsis marker for a chunk
exceeding 500 characters — not the full retrieved chunk texts. -/
theorem evaluator_receives_truncated_contexts :
    ∀ {α : Type} (env : Env α) (tr : Trace) (question : String) (inc : Bool)
      (r : SourcesResult) (tr1 : Trace) (docs : List Document),
      arun_with_sources env tr question = (.ok r, tr1) →
      env.retrieve (tr.retrieverQueries.length + 1) question = .ok docs →
      (arun_with_evaluation env tr question inc).2.evaluatorCalls =
        tr1.evaluatorCalls ++ [(question, r.answer, r.sources.map (·.content))] ∧
      r.sources.map (·.content) =
        docs.map (fun d => truncateContent d.page_content) ∧
      (∀ d ∈ docs, 500 < d.page_content.length →
        truncateContent d.page_content = d.page_content.take 500 ++ "...") := by
  intro α env tr question inc r tr1 docs h hret
  obtain ⟨docs0, docs1, h0, h1, h2, hs, htr⟩ := run_with_sources_ok_spec h
  rw [hret] at h2
  injection h2 with hd
  refine ⟨?_, ?_, ?_⟩
  · unfold arun_with_evaluation
    rw [h]
  · rw [hs, hd]
    simp [mkSources]
  · intro d hd500 hgt
    unfold truncateContent
    rw [if_pos hgt]

set_option maxRecDepth 4000 in
/-- C9 witness: with one 600-character chunk, the single evaluator call
receives the truncated source content, not the full chunk text. -/
theorem evaluator_receives_truncated_contexts_witness :
    (arun_with_sources envBig emptyTrace "q" = (.ok rBig, trQ) ∧
     envBig.retrieve (emptyTrace.retrieverQueries.length + 1) "q" = .ok [bigDoc]) ∧
    (arun_with_evaluation envBig emptyTrace "q" true).2.evaluatorCalls =
      trQ.evaluatorCalls ++ [("q", rBig.answer, rBig.sources.map (·.content))] ∧
    rBig.sources.map (·.content) =
      [bigDoc].map (fun d => truncateContent d.page_content) :=
  ⟨⟨rfl, rfl⟩,
   (evaluator_receives_truncated_contexts envBig emptyTrace "q" true rBig trQ
     [bigDoc] rfl rfl).1,
   (evaluator_receives_truncated_contexts envBig emptyTrace "q" true rBig trQ
     [bigDoc] rfl rfl).2.1⟩

/-- C2, code evaluated at the failing inputs: an upload with an empty
filename raises the `NameError` caused by the misspelt `HTTPExceptio`
(an unhandled server error, not an HTTP 400 rejection), and an upload
whose processing yields zero chunks has its `HTTPException(400, ...)`
swallowed by the blanket `except Exception` and re-raised as an
`HTTPException(500, ...)` internal processing error. -/
theorem upload_invalid_input_not_rejected_as_400 :
    upload_document "" (.ok [smallDoc]) (fun _ => .ok [0]) =
      .error (.nameError "HTTPExceptio") ∧
    upload_document "empty.txt" (.ok []) (fun _ => .ok []) =
      .error (.httpException 500
        "Error processing document: 400: No content could be extracted from the document") :=
  ⟨rfl, rfl⟩

end QnARAG
